import Mathlib

/-!
Verification of the Newsbot article scraper (`src/article_scraper.py`) and
article storage (`src/storage.py`) against their natural-language
specification.

The parsed page (a BeautifulSoup object in the source) is consumed by the
scraper only through a fixed set of queries: `select_one` with a content
selector, `find` for the `og:image` / `twitter:image` meta tags, `select_one`
with an image selector, and `find_all('img')`.  The embedding therefore
models a pruned page as a record of the answers to exactly those queries.
Strings are Lean `String`s (sequences of Unicode characters, matching
Python's `str`); Python's `None` is `Option.none`; Python truthiness of an
optional string (`None` and `""` are falsy) is `pyTruthyOpt`.
-/

/-- Whitespace as stripped by Python's `str.strip()` (restricted to the ASCII
whitespace characters). -/
def pyIsSpace (c : Char) : Bool :=
  c = ' ' || c = '\t' || c = '\n' || c = '\r' || c = '\x0b' || c = '\x0c'

/-- Python's `str.strip()` on a character list: drop leading and trailing
whitespace. -/
def stripChars (l : List Char) : List Char :=
  ((l.dropWhile pyIsSpace).reverse.dropWhile pyIsSpace).reverse

/-- Python's `str.strip()`. -/
def pyStrip (s : String) : String :=
  ⟨stripChars s.data⟩

/-- Python's `str.split('\n')`: split at every newline, keeping empty pieces
(`"".split('\n') == [""]`). -/
def splitNl : List Char → List (List Char)
  | [] => [[]]
  | c :: cs =>
    if c = '\n' then [] :: splitNl cs
    else
      match splitNl cs with
      | [] => [[c]]
      | l :: ls => (c :: l) :: ls

/-- Python's `'\n\n'.join(lines)` on character lists. -/
def joinBlank : List (List Char) → List Char
  | [] => []
  | [l] => l
  | l :: ls => l ++ '\n' :: '\n' :: joinBlank ls

/-- The clean-up step of `_extract_content` (lines 100-103 of
`article_scraper.py`):
`lines = [line.strip() for line in content.split('\n') if line.strip()]`
followed by `'\n\n'.join(lines)`. -/
def collapseLines (l : List Char) : List Char :=
  joinBlank (((splitNl l).map stripChars).filter (fun x => decide (x ≠ [])))

/-- The blank-line collapse step of `_extract_content`, on strings. -/
def collapseBlankLines (s : String) : String :=
  ⟨collapseLines s.data⟩

/-- Truthiness of an optional Python string: `None` and `""` are falsy. -/
def pyTruthyOpt : Option String → Bool
  | none => false
  | some s => s ≠ ""

/-- A content container matched by `soup.select_one(selector)`, as consumed by
`_extract_content`: the stripped texts (`get_text(strip=True)`) of its
`p`/`h1`-`h6` descendants in document order, and its own full text
(`get_text(separator='\n', strip=True)`). -/
structure Element where
  paragraphs : List String
  fullText : String
deriving DecidableEq

/-- Lines 89-93 of `article_scraper.py`: if the container has paragraph/heading
descendants, join their non-empty stripped texts with blank lines; otherwise
take the container's full text. -/
def contentFromElem (e : Element) : String :=
  match e.paragraphs with
  | [] => e.fullText
  | _ :: _ => String.intercalate "\n\n" (e.paragraphs.filter (fun t => decide (t ≠ "")))

/-- The ordered content-selector table of `_extract_content` (lines 66-81). -/
def contentSelectors : List String :=
  [ "article .article-content",
    "article .post-content",
    "article .entry-content",
    ".article-body",
    ".post-body",
    ".story-content",
    ".news-content",
    "article",
    ".post-content",
    ".entry-content",
    "main article",
    "main .content",
    ".content-area",
    "main" ]

/-- An `<img>` node as consumed by the image resolver: its `src`, `data-src`,
`data-lazy-src` and `width` attributes (`none` when the attribute is absent). -/
structure Img where
  src : Option String
  dataSrc : Option String
  dataLazySrc : Option String
  width : Option String
deriving DecidableEq

/-- A `<meta>` tag as consumed by the image resolver: its `content`
attribute. -/
structure Meta where
  content : Option String
deriving DecidableEq

/-- A pruned parsed page, modelled as the answers to the queries the scraper
performs on the soup: `select_one` with a content selector (`selectOne`),
`find('meta', property='og:image')` (`ogImage`),
`find('meta', attrs={'name': 'twitter:image'})` (`twitterImage`),
`select_one` with an image selector (`selectImg`), and `find_all('img')`
(`allImgs`). -/
structure Soup where
  selectOne : String → Option Element
  ogImage : Option Meta
  twitterImage : Option Meta
  selectImg : String → Option Img
  allImgs : List Img

/-- The selector loop of `_extract_content` (lines 83-97).  The accumulator is
the Python variable `content`, initially `None`; it keeps the text of the last
matching selector even when that text failed the 200-character gate, and the
loop breaks at the first match whose text is non-empty and longer than 200. -/
def contentLoop (soup : Soup) : List String → Option String → Option String
  | [], acc => acc
  | s :: rest, acc =>
    match soup.selectOne s with
    | none => contentLoop soup rest acc
    | some e =>
      let c := contentFromElem e
      if c ≠ "" ∧ 200 < c.length then some c
      else contentLoop soup rest (some c)

/-- `ArticleScraper._extract_content` (lines 62-105): run the selector loop,
then apply the blank-line collapse to a truthy result. -/
def extract_content (soup : Soup) : Option String :=
  match contentLoop soup contentSelectors none with
  | none => none
  | some c => if c ≠ "" then some (collapseBlankLines c) else some c

/-- `needle.isPrefixOf hay` on character lists, written out. -/
def listPre : List Char → List Char → Bool
  | [], _ => true
  | _ :: _, [] => false
  | a :: as, b :: bs => a = b && listPre as bs

/-- Python's substring test `needle in hay` on character lists. -/
def listSub : List Char → List Char → Bool
  | n, [] => listPre n []
  | n, c :: t => listPre n (c :: t) || listSub n t

/-- Python's `needle in hay` on strings. -/
def strContains (hay needle : String) : Bool :=
  listSub needle.data hay.data

/-- Python's `str.lower()` (per-character lowercasing). -/
def lowerStr (s : String) : String :=
  ⟨s.data.map Char.toLower⟩

/-- The thumbnail-indicator table of `_is_thumbnail_url` (lines 113-121). -/
def thumbnailIndicators : List String :=
  [ "/w150/", "/w200/", "/w300/",
    "/h150/", "/h200/", "/h300/",
    "-150x", "-200x", "-300x",
    "_thumb", "_small", "_tiny",
    "/thumb/", "/thumbs/",
    "/small/", "/preview/",
    "resize=", "width=150", "width=200" ]

/-- `ArticleScraper._is_thumbnail_url` (lines 107-122): a falsy URL is not a
thumbnail; otherwise the lowercased URL is tested for each indicator as a bare
substring. -/
def is_thumbnail_url (url : String) : Bool :=
  if url = "" then false
  else thumbnailIndicators.any (fun ind => strContains (lowerStr url) ind)

/-- Skip any further digits (the tail of a `\d+` regex match). -/
def skipDigits : List Char → List Char
  | [] => []
  | c :: rest => if c.isDigit then skipDigits rest else c :: rest

theorem skipDigits_length_le : ∀ l : List Char, (skipDigits l).length ≤ l.length := by
  intro l
  induction l with
  | nil => simp [skipDigits]
  | cons c rest ih =>
    simp only [skipDigits]
    split
    · exact Nat.le_succ_of_le ih
    · exact Nat.le_refl _

/-- Consume a literal expected character at the head of the list. -/
def afterLit (expected : Char) (l : List Char) : Option (List Char) :=
  match l with
  | c :: tail => if c = expected then some tail else none
  | [] => none

theorem afterLit_length_lt {x : Char} {l t : List Char} (h : afterLit x l = some t) :
    t.length < l.length := by
  cases l with
  | nil => simp [afterLit] at h
  | cons c rest =>
    simp only [afterLit] at h
    split at h
    · cases h
      simp
    · cases h

/-- Match `\d+` followed by `next`, where `next` consumes the rest of the
pattern. -/
def afterDigits (next : List Char → Option (List Char)) (l : List Char) :
    Option (List Char) :=
  match l with
  | c :: rest => if c.isDigit then next (skipDigits rest) else none
  | [] => none

theorem afterDigits_length_lt {next : List Char → Option (List Char)}
    (hnext : ∀ {m t : List Char}, next m = some t → t.length ≤ m.length)
    {l t : List Char} (h : afterDigits next l = some t) : t.length < l.length := by
  cases l with
  | nil => simp [afterDigits] at h
  | cons c rest =>
    simp only [afterDigits] at h
    split at h
    · have h1 := hnext h
      have h2 := skipDigits_length_le rest
      simp only [List.length_cons]
      omega
    · cases h

/-- Match the regex fragment `w\d+/` at the head of the list, returning the
tail after the closing slash. -/
def matchWNum (l : List Char) : Option (List Char) :=
  match l with
  | c :: rest => if c = 'w' then afterDigits (afterLit '/') rest else none
  | [] => none

theorem matchWNum_length_lt {l tail : List Char} (h : matchWNum l = some tail) :
    tail.length < l.length := by
  cases l with
  | nil => simp [matchWNum] at h
  | cons c rest =>
    simp only [matchWNum] at h
    split at h
    · have := afterDigits_length_lt
        (fun hm => Nat.le_of_lt (afterLit_length_lt hm)) h
      simp only [List.length_cons]
      omega
    · cases h

/-- The scan of `re.sub(r'/w\d+/', '/', url)`, with explicit fuel so that the
recursion is structural (each step consumes one unit of fuel and at least one
character, so fuel equal to the input length is enough; see
`subWAux_fuel_irrelevant`). -/
def subWAux : Nat → List Char → List Char
  | _, [] => []
  | 0, l => l
  | fuel + 1, '/' :: rest =>
    match matchWNum rest with
    | some tail => '/' :: subWAux fuel tail
    | none => '/' :: subWAux fuel rest
  | fuel + 1, c :: rest => c :: subWAux fuel rest

/-- `re.sub(r'/w\d+/', '/', url)` (line 132): replace every non-overlapping
occurrence of a `/w<digits>/` path segment with `/`, scanning left to right
and resuming after each match. -/
def subW (l : List Char) : List Char :=
  subWAux l.length l

/-- Match the regex fragment `\d+x\d+\.` at the head of the list, returning
the tail after the dot. -/
def matchDimDot (l : List Char) : Option (List Char) :=
  afterDigits (fun m => afterLit 'x' m |>.bind (afterDigits (afterLit '.'))) l

theorem matchDimDot_length_lt {l tail : List Char} (h : matchDimDot l = some tail) :
    tail.length < l.length := by
  refine afterDigits_length_lt (fun hm => ?_) h
  next m t =>
  simp only [Option.bind_eq_some] at hm
  obtain ⟨m2, hm2, ht⟩ := hm
  have h1 := afterLit_length_lt hm2
  have h2 := afterDigits_length_lt (fun hx => Nat.le_of_lt (afterLit_length_lt hx)) ht
  omega

/-- The scan of `re.sub(r'-\d+x\d+\.', '.', url)`, with explicit fuel so that
the recursion is structural (fuel equal to the input length is enough; see
`subWxAux_fuel_irrelevant`). -/
def subWxAux : Nat → List Char → List Char
  | _, [] => []
  | 0, l => l
  | fuel + 1, '-' :: rest =>
    match matchDimDot rest with
    | some tail => '.' :: subWxAux fuel tail
    | none => '-' :: subWxAux fuel rest
  | fuel + 1, c :: rest => c :: subWxAux fuel rest

/-- `re.sub(r'-\d+x\d+\.', '.', url)` (line 137): replace every
non-overlapping `-<digits>x<digits>.` occurrence with `.`. -/
def subWx (l : List Char) : List Char :=
  subWxAux l.length l

theorem subWAux_cons_slash (fuel : Nat) (rest : List Char) :
    subWAux (fuel + 1) ('/' :: rest) =
      match matchWNum rest with
      | some tail => '/' :: subWAux fuel tail
      | none => '/' :: subWAux fuel rest := rfl

theorem subWAux_cons_ne (fuel : Nat) (c : Char) (rest : List Char) (h : ¬ c = '/') :
    subWAux (fuel + 1) (c :: rest) = c :: subWAux fuel rest := by
  rw [subWAux.eq_def]
  split
  · simp_all
  · simp_all
  · simp_all
  · simp_all

theorem subWxAux_cons_dash (fuel : Nat) (rest : List Char) :
    subWxAux (fuel + 1) ('-' :: rest) =
      match matchDimDot rest with
      | some tail => '.' :: subWxAux fuel tail
      | none => '-' :: subWxAux fuel rest := rfl

theorem subWxAux_cons_ne (fuel : Nat) (c : Char) (rest : List Char) (h : ¬ c = '-') :
    subWxAux (fuel + 1) (c :: rest) = c :: subWxAux fuel rest := by
  rw [subWxAux.eq_def]
  split
  · simp_all
  · simp_all
  · simp_all
  · simp_all

/-- The fuel clause of `subWAux` is unreachable: any fuel at least the input
length gives the same result, so `subW` computes the full left-to-right scan. -/
theorem subWAux_fuel_irrelevant :
    ∀ (fuel₁ fuel₂ : Nat) (l : List Char), l.length ≤ fuel₁ → l.length ≤ fuel₂ →
      subWAux fuel₁ l = subWAux fuel₂ l := by
  intro fuel₁
  induction fuel₁ with
  | zero =>
    intro fuel₂ l h1 _
    have : l = [] := List.eq_nil_of_length_eq_zero (Nat.le_zero.mp h1)
    subst this
    cases fuel₂ <;> rfl
  | succ f ih =>
    intro fuel₂ l h1 h2
    cases l with
    | nil => cases fuel₂ <;> rfl
    | cons c rest =>
      cases fuel₂ with
      | zero => exact absurd h2 (by simp)
      | succ f₂ =>
        simp only [List.length_cons, Nat.succ_le_succ_iff] at h1 h2
        by_cases hc : c = '/'
        · subst hc
          rw [subWAux_cons_slash, subWAux_cons_slash]
          cases hm : matchWNum rest with
          | some tail =>
            have := matchWNum_length_lt hm
            show '/' :: subWAux f tail = '/' :: subWAux f₂ tail
            rw [ih f₂ tail (by omega) (by omega)]
          | none =>
            show '/' :: subWAux f rest = '/' :: subWAux f₂ rest
            rw [ih f₂ rest h1 h2]
        · rw [subWAux_cons_ne _ _ _ hc, subWAux_cons_ne _ _ _ hc, ih f₂ rest h1 h2]

/-- The fuel clause of `subWxAux` is unreachable. -/
theorem subWxAux_fuel_irrelevant :
    ∀ (fuel₁ fuel₂ : Nat) (l : List Char), l.length ≤ fuel₁ → l.length ≤ fuel₂ →
      subWxAux fuel₁ l = subWxAux fuel₂ l := by
  intro fuel₁
  induction fuel₁ with
  | zero =>
    intro fuel₂ l h1 _
    have : l = [] := List.eq_nil_of_length_eq_zero (Nat.le_zero.mp h1)
    subst this
    cases fuel₂ <;> rfl
  | succ f ih =>
    intro fuel₂ l h1 h2
    cases l with
    | nil => cases fuel₂ <;> rfl
    | cons c rest =>
      cases fuel₂ with
      | zero => exact absurd h2 (by simp)
      | succ f₂ =>
        simp only [List.length_cons, Nat.succ_le_succ_iff] at h1 h2
        by_cases hc : c = '-'
        · subst hc
          rw [subWxAux_cons_dash, subWxAux_cons_dash]
          cases hm : matchDimDot rest with
          | some tail =>
            have := matchDimDot_length_lt hm
            show '.' :: subWxAux f tail = '.' :: subWxAux f₂ tail
            rw [ih f₂ tail (by omega) (by omega)]
          | none =>
            show '-' :: subWxAux f rest = '-' :: subWxAux f₂ rest
            rw [ih f₂ rest h1 h2]
        · rw [subWxAux_cons_ne _ _ _ hc, subWxAux_cons_ne _ _ _ hc, ih f₂ rest h1 h2]

/-- `ArticleScraper._upgrade_thumbnail_url` (lines 124-138): collapse a
`/w<digits>/` segment to `/` if that changes the URL, else strip a
`-<digits>x<digits>` suffix before a dot; falsy URLs are returned unchanged. -/
def upgrade_thumbnail_url (url : String) : String :=
  if url = "" then url
  else
    let upgraded : String := ⟨subW url.data⟩
    if upgraded ≠ url then upgraded
    else ⟨subWx url.data⟩

/-- Parse a run of ASCII digits with Python's single-underscore grouping rule
(an underscore must sit between two digits), accumulating the value. -/
def parseDigitsAcc : List Char → Nat → Option Nat
  | [], acc => some acc
  | '_' :: c :: rest, acc =>
    if c.isDigit then parseDigitsAcc rest (acc * 10 + (c.toNat - 48)) else none
  | ['_'], _ => none
  | c :: rest, acc =>
    if c.isDigit then parseDigitsAcc rest (acc * 10 + (c.toNat - 48)) else none

/-- Parse a non-empty digit run (first character must be a digit). -/
def parseDigitRun : List Char → Option Nat
  | [] => none
  | c :: rest => if c.isDigit then parseDigitsAcc rest (c.toNat - 48) else none

/-- Python's `int(s)` restricted to base-10 ASCII literals: surrounding
whitespace is stripped, an optional sign is consumed, then a non-empty digit
run (underscore grouping allowed) is required; anything else raises
`ValueError`, modelled as `none`. -/
def pyInt (s : String) : Option Int :=
  match stripChars s.data with
  | '+' :: rest => (parseDigitRun rest).map Int.ofNat
  | '-' :: rest => (parseDigitRun rest).map (fun n => -(n : Int))
  | rest => (parseDigitRun rest).map Int.ofNat

/-- Characters allowed in a URL scheme. -/
def isSchemeChar (c : Char) : Bool :=
  c.isAlphanum || c = '+' || c = '-' || c = '.'

/-- Split `scheme:rest` off a URL, when the URL starts with a non-empty run of
scheme characters followed by a colon. -/
def schemeSplit (l : List Char) : Option (List Char × List Char) :=
  let pre := l.takeWhile isSchemeChar
  match l.drop pre.length with
  | ':' :: rest => if pre = [] then none else some (pre, rest)
  | _ => none

/-- The directory part of a path: everything up to and including the last
slash, or a single slash when the path has none (also when it is empty). -/
def dirOf (path : List Char) : List Char :=
  if path.contains '/' then
    (path.reverse.dropWhile (fun c => c ≠ '/')).reverse
  else ['/']

/-- Model of `urllib.parse.urljoin` for the URL shapes this scraper handles:
an empty reference returns the base; a reference carrying its own scheme is
returned as is; against a hierarchical `scheme://netloc/path` base, a
`//`-reference keeps the base scheme, a rooted reference keeps scheme and
netloc, and a plain relative reference is appended to the directory of the
base path.  Dot-segment normalisation, query and fragment splitting are not
modelled (no URL handled by the claims uses them). -/
def urljoin (base rel : String) : String :=
  if rel = "" then base
  else if (schemeSplit rel.data).isSome then rel
  else
    match schemeSplit base.data with
    | none => rel
    | some (scheme, afterColon) =>
      match afterColon with
      | '/' :: '/' :: hostPath =>
        let netloc := hostPath.takeWhile (fun c => c ≠ '/')
        let path := hostPath.drop netloc.length
        if rel.data.take 2 = ['/', '/'] then
          ⟨scheme ++ ':' :: rel.data⟩
        else if rel.data.head? = some '/' then
          ⟨scheme ++ ':' :: '/' :: '/' :: (netloc ++ rel.data)⟩
        else
          ⟨scheme ++ ':' :: '/' :: '/' :: (netloc ++ dirOf path ++ rel.data)⟩
      | _ => rel

/-- Lines 173-174 / 189-190 of `article_scraper.py`:
`img.get('src') or img.get('data-src') or img.get('data-lazy-src')` followed
by the `if image_url:` truthiness guard — the first truthy attribute wins,
and a falsy final value fails the guard. -/
def getUrl (img : Img) : Option String :=
  if pyTruthyOpt img.src then img.src
  else if pyTruthyOpt img.dataSrc then img.dataSrc
  else if pyTruthyOpt img.dataLazySrc then img.dataLazySrc
  else none

/-- The image-selector table of `_extract_image` (lines 160-168). -/
def imageSelectors : List String :=
  [ "img.article-image",
    "img.featured-image",
    "img.wp-post-image",
    "article img:first-of-type",
    ".post-content img:first-of-type",
    "main img:first-of-type",
    ".content img:first-of-type" ]

/-- The selector tier of `_extract_image` (lines 170-184): for each selector
in order, resolve the matched image's URL attribute and join it against the
article URL; a declared width is accepted only when it parses as an integer
greater than 200, a malformed width falls through to the next selector via
the `except ValueError: pass`, and an absent (or empty) width accepts the
candidate unconditionally. -/
def selectorTier (soup : Soup) (article_url : String) : List String → Option String
  | [] => none
  | s :: rest =>
    match soup.selectImg s with
    | none => selectorTier soup article_url rest
    | some img =>
      match getUrl img with
      | none => selectorTier soup article_url rest
      | some u =>
        let joined := urljoin article_url u
        match img.width with
        | some w =>
          if w ≠ "" then
            match pyInt w with
            | some n => if 200 < n then some joined else selectorTier soup article_url rest
            | none => selectorTier soup article_url rest
          else some joined
        | none => some joined

/-- The deny-list of the brute-force tier (line 193). -/
def skipKeywords : List String :=
  ["logo", "icon", "avatar", "button", "ad", "banner", "sponsor", "pixel"]

/-- The brute-force tier of `_extract_image` (lines 186-207): scan every image
in document order, skip resolved URLs containing a deny-list keyword, accept
when the declared width is absent (or empty) or parses to more than 300. -/
def bruteTier (article_url : String) : List Img → Option String
  | [] => none
  | img :: rest =>
    match getUrl img with
    | none => bruteTier article_url rest
    | some u =>
      let joined := urljoin article_url u
      if skipKeywords.any (fun k => strContains (lowerStr joined) k) then
        bruteTier article_url rest
      else
        match img.width with
        | some w =>
          if w ≠ "" then
            match pyInt w with
            | some n => if 300 < n then some joined else bruteTier article_url rest
            | none => bruteTier article_url rest
          else some joined
        | none => some joined

/-- The `if tag and tag.get('content')` guard on a meta tag: the tag must be
present and its `content` attribute truthy. -/
def metaContent : Option Meta → Option String
  | none => none
  | some m =>
    match m.content with
    | none => none
    | some c => if c ≠ "" then some c else none

/-- The body shared by the `og:image` and `twitter:image` branches of
`_extract_image` (lines 144-157): resolve the content against the article
URL and upgrade the result once when it is thumbnail-shaped. -/
def metaImageUrl (article_url content : String) : String :=
  let u := urljoin article_url content
  if is_thumbnail_url u then upgrade_thumbnail_url u else u

/-- `ArticleScraper._extract_image` (lines 140-207): metadata tier
(`og:image`, then `twitter:image`), then the selector tier, then the
brute-force tier. -/
def extract_image (soup : Soup) (article_url : String) : Option String :=
  match metaContent soup.ogImage with
  | some c => some (metaImageUrl article_url c)
  | none =>
    match metaContent soup.twitterImage with
    | some c => some (metaImageUrl article_url c)
    | none =>
      match selectorTier soup article_url imageSelectors with
      | some u => some u
      | none => bruteTier article_url soup.allImgs

/-- The result dictionary of `scrape_article`: exactly the keys `content` and
`image_url`, both optional. -/
structure ScrapeResult where
  content : Option String
  image_url : Option String
deriving DecidableEq

/-- `ArticleScraper.scrape_article` (lines 20-60).  The network fetch and
parse are external; their outcome is passed in as `fetched` (`none` when
`requests.get`/`raise_for_status` raises, in which case the `except` branch
returns the initial all-`None` result and the feed-image fallback is never
reached).  On a fetched page, content and image are extracted, and the
feed-supplied image is used only when the extracted image is falsy — in both
the thumbnail and the non-thumbnail branch of lines 50-54. -/
def scrape_article (fetched : Option Soup) (article_url : String)
    (rss_image : Option String) : ScrapeResult :=
  match fetched with
  | none => { content := none, image_url := none }
  | some soup =>
    let content := extract_content soup
    let img := extract_image soup article_url
    let img :=
      if pyTruthyOpt img then img
      else
        match rss_image with
        | some r =>
          if r ≠ "" then
            if is_thumbnail_url r = false then some r else some r
          else img
        | none => img
    { content := content, image_url := img }

/-- A row of the `articles` table (`storage.py`, lines 24-38). -/
structure ArticleRow where
  id : Nat
  article_url : String
  feed_name : String
  title : String
  published_date : Option String
  image_url : Option String
  original_content : Option String
  rewritten_content : Option String
  status : Option String
  created_at : String
  processed_at : Option String
deriving DecidableEq

/-- `ArticleStorage.update_article_content` (`storage.py`, lines 98-117), on a
database modelled as the list of rows of the `articles` table.  With a truthy
`image_url` the UPDATE sets `original_content` and `image_url` on rows whose
`article_url` matches; with a falsy one (Python `None` or `""`) it sets only
`original_content`. -/
def update_article_content (db : List ArticleRow) (article_url : String)
    (content : Option String) (image_url : Option String) : List ArticleRow :=
  if pyTruthyOpt image_url then
    db.map (fun r =>
      if r.article_url = article_url then
        { r with original_content := content, image_url := image_url }
      else r)
  else
    db.map (fun r =>
      if r.article_url = article_url then
        { r with original_content := content }
      else r)

/-- Decidable form of "every element the query returned satisfies the
bound". -/
def optAll (p : α → Bool) : Option α → Bool
  | none => true
  | some a => p a

theorem optAll_some {p : α → Bool} {o : Option α} {a : α}
    (h : optAll p o = true) (he : o = some a) : p a = true := by
  subst he
  exact h

/-- C9: `scrape_article` is total at its public interface: it always returns a
record with exactly the fields `content` and `image_url` (the type
`ScrapeResult`), and when the fetch or parse step fails (modelled by
`fetched = none`, the `except` branch of lines 58-60) both fields are `None`
and the feed-image fallback is not applied, whatever the article URL and the
feed-supplied image were. -/
theorem C9_scrape_total_and_null_on_fetch_failure (article_url : String)
    (rss_image : Option String) :
    scrape_article none article_url rss_image = { content := none, image_url := none } := rfl

/-- C10: `update_article_content` with a falsy `image_url` changes only the
`original_content` column of rows whose `article_url` matches: the table keeps
its rows in place, and every row's `id`, `article_url`, `feed_name`, `title`,
`published_date`, `image_url`, `rewritten_content`, `status`, `created_at`
and `processed_at` are unchanged, so a previously stored image survives a
scrape that found none. -/
theorem C10_update_content_falsy_image_frame (db : List ArticleRow) (url : String)
    (content : Option String) (image_url : Option String)
    (h : pyTruthyOpt image_url = false) (i : Nat) :
    ((update_article_content db url content image_url)[i]?).map ArticleRow.image_url
        = (db[i]?).map ArticleRow.image_url
  ∧ ((update_article_content db url content image_url)[i]?).map ArticleRow.rewritten_content
        = (db[i]?).map ArticleRow.rewritten_content
  ∧ ((update_article_content db url content image_url)[i]?).map ArticleRow.status
        = (db[i]?).map ArticleRow.status
  ∧ ((update_article_content db url content image_url)[i]?).map ArticleRow.id
        = (db[i]?).map ArticleRow.id
  ∧ ((update_article_content db url content image_url)[i]?).map ArticleRow.article_url
        = (db[i]?).map ArticleRow.article_url
  ∧ ((update_article_content db url content image_url)[i]?).map ArticleRow.feed_name
        = (db[i]?).map ArticleRow.feed_name
  ∧ ((update_article_content db url content image_url)[i]?).map ArticleRow.title
        = (db[i]?).map ArticleRow.title
  ∧ ((update_article_content db url content image_url)[i]?).map ArticleRow.published_date
        = (db[i]?).map ArticleRow.published_date
  ∧ ((update_article_content db url content image_url)[i]?).map ArticleRow.created_at
        = (db[i]?).map ArticleRow.created_at
  ∧ ((update_article_content db url content image_url)[i]?).map ArticleRow.processed_at
        = (db[i]?).map ArticleRow.processed_at
  ∧ ((update_article_content db url content image_url)[i]?).map ArticleRow.original_content
        = (db[i]?).map (fun r => if r.article_url = url then content else r.original_content) := by
  have hif : update_article_content db url content image_url
      = db.map (fun r =>
          if r.article_url = url then { r with original_content := content } else r) := by
    unfold update_article_content
    rw [h]
    simp
  rw [hif]
  cases hdb : db[i]? with
  | none => simp [List.getElem?_map, hdb]
  | some r =>
    by_cases hr : r.article_url = url <;>
      simp [List.getElem?_map, hdb, hr]

/-- A sample stored article row used to witness C10. -/
def c10row : ArticleRow :=
  { id := 1, article_url := "https://news.test/a/1", feed_name := "feed",
    title := "t", published_date := some "2024-01-01",
    image_url := some "https://img.test/old.jpg",
    original_content := some "old", rewritten_content := some "social text",
    status := some "ready", created_at := "2024-01-01", processed_at := none }

theorem C10_update_content_falsy_image_frame_witness :
    pyTruthyOpt none = false
  ∧ (((update_article_content [c10row] "https://news.test/a/1" (some "new") none)[0]?).map
        ArticleRow.image_url = ([c10row][0]?).map ArticleRow.image_url
     ∧ ((update_article_content [c10row] "https://news.test/a/1" (some "new") none)[0]?).map
        ArticleRow.rewritten_content = ([c10row][0]?).map ArticleRow.rewritten_content
     ∧ ((update_article_content [c10row] "https://news.test/a/1" (some "new") none)[0]?).map
        ArticleRow.status = ([c10row][0]?).map ArticleRow.status
     ∧ ((update_article_content [c10row] "https://news.test/a/1" (some "new") none)[0]?).map
        ArticleRow.id = ([c10row][0]?).map ArticleRow.id
     ∧ ((update_article_content [c10row] "https://news.test/a/1" (some "new") none)[0]?).map
        ArticleRow.article_url = ([c10row][0]?).map ArticleRow.article_url
     ∧ ((update_article_content [c10row] "https://news.test/a/1" (some "new") none)[0]?).map
        ArticleRow.feed_name = ([c10row][0]?).map ArticleRow.feed_name
     ∧ ((update_article_content [c10row] "https://news.test/a/1" (some "new") none)[0]?).map
        ArticleRow.title = ([c10row][0]?).map ArticleRow.title
     ∧ ((update_article_content [c10row] "https://news.test/a/1" (some "new") none)[0]?).map
        ArticleRow.published_date = ([c10row][0]?).map ArticleRow.published_date
     ∧ ((update_article_content [c10row] "https://news.test/a/1" (some "new") none)[0]?).map
        ArticleRow.created_at = ([c10row][0]?).map ArticleRow.created_at
     ∧ ((update_article_content [c10row] "https://news.test/a/1" (some "new") none)[0]?).map
        ArticleRow.processed_at = ([c10row][0]?).map ArticleRow.processed_at
     ∧ ((update_article_content [c10row] "https://news.test/a/1" (some "new") none)[0]?).map
        ArticleRow.original_content = ([c10row][0]?).map
          (fun r => if r.article_url = "https://news.test/a/1" then some "new"
                    else r.original_content))
  ∧ ((update_article_content [c10row] "https://news.test/a/1" (some "new") none)[0]?).map
        ArticleRow.image_url = some (some "https://img.test/old.jpg") :=
  ⟨rfl,
   C10_update_content_falsy_image_frame [c10row] "https://news.test/a/1"
     (some "new") none rfl 0,
   by decide⟩

/-- C7: whenever the page carries an `og:image` meta tag with truthy content,
`_extract_image` returns that content resolved against the page URL (upgraded
once when thumbnail-shaped), whatever images the body holds: the selector and
brute-force tiers are never consulted. -/
theorem C7_og_metadata_precedence (soup : Soup) (article_url c : String)
    (hog : metaContent soup.ogImage = some c) :
    extract_image soup article_url = some (metaImageUrl article_url c) := by
  unfold extract_image
  rw [hog]

/-- A body image used to witness C7: a large in-body image that the metadata
tier must ignore. -/
def c7bodyImg : Img :=
  { src := some "https://big.example/huge.jpg", dataSrc := none,
    dataLazySrc := none, width := some "1200" }

/-- A page with both an `og:image` tag and a large body image. -/
def c7soup : Soup :=
  { selectOne := fun _ => none,
    ogImage := some { content := some "https://pic.example/full.jpg" },
    twitterImage := none,
    selectImg := fun s => if s = "article img:first-of-type" then some c7bodyImg else none,
    allImgs := [c7bodyImg] }

theorem C7_og_metadata_precedence_witness :
    metaContent c7soup.ogImage = some "https://pic.example/full.jpg"
  ∧ selectorTier c7soup "https://news.example/story" imageSelectors
      = some "https://big.example/huge.jpg"
  ∧ extract_image c7soup "https://news.example/story"
      = some "https://pic.example/full.jpg" := by
  refine ⟨by decide, by decide, ?_⟩
  have h := C7_og_metadata_precedence c7soup "https://news.example/story"
    "https://pic.example/full.jpg" (by decide)
  rw [h]
  decide

/-- C4: when the page's `og:image` resolves (relative to the page URL) to a
thumbnail-classified URL, the resolver returns the one-shot upgraded URL
(`/w<digits>/` collapsed to `/`, else a `-<digits>x<digits>` suffix before
the extension stripped). -/
theorem C4_og_thumbnail_upgraded (soup : Soup) (article_url c : String)
    (hog : metaContent soup.ogImage = some c)
    (hthumb : is_thumbnail_url (urljoin article_url c) = true) :
    extract_image soup article_url = some (upgrade_thumbnail_url (urljoin article_url c)) := by
  unfold extract_image
  rw [hog]
  show some (metaImageUrl article_url c) = some (upgrade_thumbnail_url (urljoin article_url c))
  simp [metaImageUrl, hthumb]

/-- A page whose `og:image` is a root-relative WordPress thumbnail. -/
def c4soupA : Soup :=
  { selectOne := fun _ => none,
    ogImage := some { content := some "/media/story-300x200.jpg" },
    twitterImage := none, selectImg := fun _ => none, allImgs := [] }

/-- A page whose `og:image` is an absolute URL with a `/w150/` path segment. -/
def c4soupB : Soup :=
  { selectOne := fun _ => none,
    ogImage := some { content := some "https://x.com/img/w150/photo.jpg" },
    twitterImage := none, selectImg := fun _ => none, allImgs := [] }

theorem C4_og_thumbnail_upgraded_witness :
    metaContent c4soupA.ogImage = some "/media/story-300x200.jpg"
  ∧ is_thumbnail_url (urljoin "https://news.test/a/1" "/media/story-300x200.jpg") = true
  ∧ extract_image c4soupA "https://news.test/a/1" = some "https://news.test/media/story.jpg"
  ∧ metaContent c4soupB.ogImage = some "https://x.com/img/w150/photo.jpg"
  ∧ is_thumbnail_url (urljoin "https://b.test/p" "https://x.com/img/w150/photo.jpg") = true
  ∧ extract_image c4soupB "https://b.test/p" = some "https://x.com/img/photo.jpg" := by
  refine ⟨by decide, by decide, ?_, by decide, by decide, ?_⟩
  · have h := C4_og_thumbnail_upgraded c4soupA "https://news.test/a/1"
      "/media/story-300x200.jpg" (by decide) (by decide)
    rw [h]
    decide
  · have h := C4_og_thumbnail_upgraded c4soupB "https://b.test/p"
      "https://x.com/img/w150/photo.jpg" (by decide) (by decide)
    rw [h]
    decide

/-- A URL carrying `-300x` away from the file extension and no other
thumbnail indicator. -/
def c3url : String := "https://a.com/pic-300xq/img.png"

/-- C3 counterexample: the heuristic classifies by bare substring, so a URL
whose only marker is a `-300x` that does not precede the file extension (the
WordPress-suffix regex finds no `-<digits>x<digits>.` to strip, and no other
indicator occurs) is still classified as a thumbnail — the claim expects
`false` here. -/
theorem C3_dimension_marker_counterexample :
    strContains (lowerStr c3url) "-300x" = true
  ∧ subWx c3url.data = c3url.data
  ∧ (∀ ind ∈ thumbnailIndicators, ind ≠ "-150x" → ind ≠ "-200x" → ind ≠ "-300x" →
       strContains (lowerStr c3url) ind = false)
  ∧ is_thumbnail_url c3url = true := by decide

/-- C3 amended: a WordPress-style dimension marker (`-150x`, `-200x`,
`-300x`) classifies the URL as a thumbnail wherever it occurs in the
lowercased URL — adjacency to the file extension is not required. -/
theorem C3_dimension_marker_anywhere (url : String)
    (h : strContains (lowerStr url) "-150x" = true
       ∨ strContains (lowerStr url) "-200x" = true
       ∨ strContains (lowerStr url) "-300x" = true) :
    is_thumbnail_url url = true := by
  have hne : url ≠ "" := by
    intro he
    subst he
    exact absurd h (by decide)
  unfold is_thumbnail_url
  rw [if_neg hne, List.any_eq_true]
  rcases h with h | h | h
  · exact ⟨"-150x", by decide, h⟩
  · exact ⟨"-200x", by decide, h⟩
  · exact ⟨"-300x", by decide, h⟩

theorem C3_dimension_marker_anywhere_witness :
    strContains (lowerStr "https://b.net/y-150xz/q.gif") "-150x" = true
  ∧ is_thumbnail_url "https://b.net/y-150xz/q.gif" = true :=
  ⟨by decide,
   C3_dimension_marker_anywhere "https://b.net/y-150xz/q.gif" (Or.inl (by decide))⟩

/-- The single image of the C2 page: a selector-tier candidate whose declared
width does not parse as an integer. -/
def c2img : Img :=
  { src := some "https://n.test/pic.jpg", dataSrc := none, dataLazySrc := none,
    width := some "abc" }

/-- A page whose only image is matched by `img.article-image` and carries the
malformed width. -/
def c2soup : Soup :=
  { selectOne := fun _ => none, ogImage := none, twitterImage := none,
    selectImg := fun s => if s = "img.article-image" then some c2img else none,
    allImgs := [c2img] }

/-- C2 counterexample: a selector-tier image with a present but unparseable
width is not accepted unconditionally — the `except ValueError: pass` falls
through to the next selector, and with no other candidate the resolver
returns `None` instead of the candidate's URL. -/
theorem C2_malformed_width_counterexample :
    c2img.width = some "abc"
  ∧ pyInt "abc" = none
  ∧ getUrl c2img = some "https://n.test/pic.jpg"
  ∧ extract_image c2soup "https://n.test/a" = none := by decide

/-- C2 amended: in the selector tier a present, truthy width that does not
parse as an integer is treated like a too-small width, not like an absent
one: the candidate is rejected and the scan continues with the next selector
(no error is raised — the tier stays total). -/
theorem C2_malformed_width_rejected (soup : Soup) (article_url s : String)
    (rest : List String) (img : Img) (hs : soup.selectImg s = some img)
    (u : String) (hu : getUrl img = some u)
    (w : String) (hw : img.width = some w) (hwt : w ≠ "") (hmal : pyInt w = none) :
    selectorTier soup article_url (s :: rest) = selectorTier soup article_url rest := by
  simp only [selectorTier, hs, hu, hw, hmal, hwt]
  simp [hwt]

theorem C2_malformed_width_rejected_witness :
    c2soup.selectImg "img.article-image" = some c2img
  ∧ getUrl c2img = some "https://n.test/pic.jpg"
  ∧ c2img.width = some "abc"
  ∧ pyInt "abc" = none
  ∧ selectorTier c2soup "https://n.test/a" ("img.article-image" :: [])
      = selectorTier c2soup "https://n.test/a" []
  ∧ selectorTier c2soup "https://n.test/a" ["img.article-image"] = none := by
  refine ⟨by decide, by decide, by decide, by decide, ?_, by decide⟩
  exact C2_malformed_width_rejected c2soup "https://n.test/a" "img.article-image" []
    c2img (by decide) "https://n.test/pic.jpg" (by decide) "abc" (by decide)
    (by decide) (by decide)

theorem mk_ne_empty {l : List Char} (h : l ≠ []) : (⟨l⟩ : String) ≠ "" :=
  fun he => h (congrArg String.data he)

theorem ne_empty_data {s : String} (h : s ≠ "") : s.data ≠ [] := by
  intro hd
  apply h
  cases s with
  | mk data =>
    cases hd
    rfl

theorem subWAux_ne_nil (fuel : Nat) (l : List Char) (h : l ≠ []) :
    subWAux fuel l ≠ [] := by
  cases l with
  | nil => exact absurd rfl h
  | cons c cs =>
    cases fuel with
    | zero => simp [subWAux]
    | succ f =>
      by_cases hc : c = '/'
      · subst hc
        rw [subWAux_cons_slash]
        cases matchWNum cs <;> simp
      · rw [subWAux_cons_ne _ _ _ hc]
        simp

theorem subWxAux_ne_nil (fuel : Nat) (l : List Char) (h : l ≠ []) :
    subWxAux fuel l ≠ [] := by
  cases l with
  | nil => exact absurd rfl h
  | cons c cs =>
    cases fuel with
    | zero => simp [subWxAux]
    | succ f =>
      by_cases hc : c = '-'
      · subst hc
        rw [subWxAux_cons_dash]
        cases matchDimDot cs <;> simp
      · rw [subWxAux_cons_ne _ _ _ hc]
        simp

theorem upgrade_thumbnail_url_ne_empty {url : String} (h : url ≠ "") :
    upgrade_thumbnail_url url ≠ "" := by
  unfold upgrade_thumbnail_url
  rw [if_neg h]
  show (if (⟨subW url.data⟩ : String) ≠ url then (⟨subW url.data⟩ : String)
        else ⟨subWx url.data⟩) ≠ ""
  split
  · exact mk_ne_empty (subWAux_ne_nil _ _ (ne_empty_data h))
  · exact mk_ne_empty (subWxAux_ne_nil _ _ (ne_empty_data h))

theorem urljoin_ne_empty {base rel : String} (h : rel ≠ "") :
    urljoin base rel ≠ "" := by
  unfold urljoin
  rw [if_neg h]
  split
  · exact h
  · split
    · exact h
    · split
      · split
        · apply mk_ne_empty
          simp
        · split
          · apply mk_ne_empty
            simp
          · apply mk_ne_empty
            simp
      · exact h

theorem pyTruthyOpt_some {o : Option String} {u : String}
    (ht : pyTruthyOpt o = true) (he : o = some u) : u ≠ "" := by
  subst he
  simpa [pyTruthyOpt] using ht

theorem getUrl_ne_empty {img : Img} {u : String} (h : getUrl img = some u) :
    u ≠ "" := by
  unfold getUrl at h
  split at h
  · exact pyTruthyOpt_some (by assumption) h
  · split at h
    · exact pyTruthyOpt_some (by assumption) h
    · split at h
      · exact pyTruthyOpt_some (by assumption) h
      · cases h

theorem metaContent_ne_empty {o : Option Meta} {c : String}
    (h : metaContent o = some c) : c ≠ "" := by
  unfold metaContent at h
  split at h
  · cases h
  · split at h
    · cases h
    · split at h
      · cases h
        assumption
      · cases h

theorem metaImageUrl_ne_empty {article_url c : String} (h : c ≠ "") :
    metaImageUrl article_url c ≠ "" := by
  unfold metaImageUrl
  show (if is_thumbnail_url (urljoin article_url c) = true
        then upgrade_thumbnail_url (urljoin article_url c)
        else urljoin article_url c) ≠ ""
  split
  · exact upgrade_thumbnail_url_ne_empty (urljoin_ne_empty h)
  · exact urljoin_ne_empty h

theorem selectorTier_ne_empty (soup : Soup) (article_url : String) :
    ∀ (ss : List String) (u : String),
      selectorTier soup article_url ss = some u → u ≠ "" := by
  intro ss
  induction ss with
  | nil => intro u h; cases h
  | cons s rest ih =>
    intro u h
    cases hs : soup.selectImg s with
    | none =>
      simp only [selectorTier, hs] at h
      exact ih u h
    | some img =>
      cases hu : getUrl img with
      | none =>
        simp only [selectorTier, hs, hu] at h
        exact ih u h
      | some u0 =>
        have hu0 : u0 ≠ "" := getUrl_ne_empty hu
        cases hw : img.width with
        | none =>
          simp only [selectorTier, hs, hu, hw] at h
          cases h
          exact urljoin_ne_empty hu0
        | some w =>
          by_cases hwt : w = ""
          · subst hwt
            simp only [selectorTier, hs, hu, hw] at h
            simp only [ne_eq, not_true_eq_false, if_false] at h
            cases h
            exact urljoin_ne_empty hu0
          · cases hp : pyInt w with
            | none =>
              simp only [selectorTier, hs, hu, hw, hp] at h
              simp only [ne_eq, hwt, not_false_eq_true, if_true] at h
              exact ih u h
            | some n =>
              by_cases hn : 200 < n
              · simp only [selectorTier, hs, hu, hw, hp] at h
                simp only [ne_eq, hwt, not_false_eq_true, if_true, hn] at h
                cases h
                exact urljoin_ne_empty hu0
              · simp only [selectorTier, hs, hu, hw, hp] at h
                simp only [ne_eq, hwt, not_false_eq_true, if_true, hn] at h
                exact ih u h

theorem bruteTier_ne_empty (article_url : String) :
    ∀ (imgs : List Img) (u : String),
      bruteTier article_url imgs = some u → u ≠ "" := by
  intro imgs
  induction imgs with
  | nil => intro u h; cases h
  | cons img rest ih =>
    intro u h
    cases hu : getUrl img with
    | none =>
      simp only [bruteTier, hu] at h
      exact ih u h
    | some u0 =>
      have hu0 : u0 ≠ "" := getUrl_ne_empty hu
      by_cases hskip : skipKeywords.any
          (fun k => strContains (lowerStr (urljoin article_url u0)) k) = true
      · simp only [bruteTier, hu, hskip, if_true] at h
        exact ih u h
      · cases hw : img.width with
        | none =>
          simp only [bruteTier, hu, hw, hskip] at h
          cases h
          exact urljoin_ne_empty hu0
        | some w =>
          by_cases hwt : w = ""
          · subst hwt
            simp only [bruteTier, hu, hw, hskip] at h
            simp only [ne_eq, not_true_eq_false, if_false] at h
            cases h
            exact urljoin_ne_empty hu0
          · cases hp : pyInt w with
            | none =>
              simp only [bruteTier, hu, hw, hskip, hp] at h
              simp only [ne_eq, hwt, not_false_eq_true, if_true] at h
              exact ih u h
            | some n =>
              by_cases hn : 300 < n
              · simp only [bruteTier, hu, hw, hskip, hp] at h
                simp only [ne_eq, hwt, not_false_eq_true, if_true, hn] at h
                cases h
                exact urljoin_ne_empty hu0
              · simp only [bruteTier, hu, hw, hskip, hp] at h
                simp only [ne_eq, hwt, not_false_eq_true, if_true, hn] at h
                exact ih u h

theorem extract_image_ne_empty {soup : Soup} {article_url u : String}
    (h : extract_image soup article_url = some u) : u ≠ "" := by
  unfold extract_image at h
  cases hog : metaContent soup.ogImage with
  | some c =>
    rw [hog] at h
    cases h
    exact metaImageUrl_ne_empty (metaContent_ne_empty hog)
  | none =>
    rw [hog] at h
    cases htw : metaContent soup.twitterImage with
    | some c =>
      rw [htw] at h
      cases h
      exact metaImageUrl_ne_empty (metaContent_ne_empty htw)
    | none =>
      rw [htw] at h
      cases hsel : selectorTier soup article_url imageSelectors with
      | some v =>
        rw [hsel] at h
        cases h
        exact selectorTier_ne_empty soup article_url imageSelectors u hsel
      | none =>
        rw [hsel] at h
        exact bruteTier_ne_empty article_url soup.allImgs u h

/-- C5: the feed-image fallback of `scrape_article` (lines 49-54).  First
part: when no scraping tier produced an image (`_extract_image` returned
`None`) and a non-empty feed-supplied image exists, the final `image_url` is
exactly the feed image, thumbnail-shaped or not.  Second part: whenever a
scraping tier produced a URL, that URL is final and the fallback never
activates (tier results are proved non-empty, hence truthy). -/
theorem C5_feed_image_fallback :
    (∀ (soup : Soup) (article_url r : String),
        extract_image soup article_url = none → r ≠ "" →
        (scrape_article (some soup) article_url (some r)).image_url = some r)
  ∧ (∀ (soup : Soup) (article_url : String) (rss_image : Option String) (u : String),
        extract_image soup article_url = some u →
        (scrape_article (some soup) article_url rss_image).image_url = some u) := by
  constructor
  · intro soup article_url r hnone hr
    simp only [scrape_article, hnone, pyTruthyOpt, Bool.false_eq_true, if_false]
    simp [hr]
  · intro soup article_url rss_image u hsome
    have hu : u ≠ "" := extract_image_ne_empty hsome
    simp only [scrape_article, hsome]
    simp [pyTruthyOpt, hu]

/-- The only image of the C5 fallback page: a deny-listed logo. -/
def c5logoImg : Img :=
  { src := some "/logo.png", dataSrc := none, dataLazySrc := none, width := none }

/-- A page with only a logo image, so every scraping tier fails. -/
def c5soupA : Soup :=
  { selectOne := fun _ => none, ogImage := none, twitterImage := none,
    selectImg := fun _ => none, allImgs := [c5logoImg] }

/-- The hero image of the C5 no-fallback page. -/
def c5heroImg : Img :=
  { src := some "hero.jpg", dataSrc := none, dataLazySrc := none, width := some "800" }

/-- A page whose `wp-post-image` is accepted by the selector tier. -/
def c5soupB : Soup :=
  { selectOne := fun _ => none, ogImage := none, twitterImage := none,
    selectImg := fun s => if s = "img.wp-post-image" then some c5heroImg else none,
    allImgs := [c5heroImg] }

theorem C5_feed_image_fallback_witness :
    extract_image c5soupA "https://news.test/a/3" = none
  ∧ is_thumbnail_url "https://cdn.test/thumb/x.jpg" = true
  ∧ (scrape_article (some c5soupA) "https://news.test/a/3"
        (some "https://cdn.test/thumb/x.jpg")).image_url
      = some "https://cdn.test/thumb/x.jpg"
  ∧ extract_image c5soupB "https://news.test/a/2" = some "https://news.test/a/hero.jpg"
  ∧ (scrape_article (some c5soupB) "https://news.test/a/2"
        (some "https://cdn.test/feed.jpg")).image_url
      = some "https://news.test/a/hero.jpg" := by
  refine ⟨by decide, by decide, ?_, by decide, ?_⟩
  · exact C5_feed_image_fallback.1 c5soupA "https://news.test/a/3"
      "https://cdn.test/thumb/x.jpg" (by decide) (by decide)
  · exact C5_feed_image_fallback.2 c5soupB "https://news.test/a/2"
      (some "https://cdn.test/feed.jpg") "https://news.test/a/hero.jpg" (by decide)

theorem contentLoop_skip_unmatched (soup : Soup) (ss rest : List String)
    (acc : Option String) (h : ∀ s ∈ ss, soup.selectOne s = none) :
    contentLoop soup (ss ++ rest) acc = contentLoop soup rest acc := by
  induction ss with
  | nil => rfl
  | cons s ss ih =>
    rw [List.cons_append]
    simp only [contentLoop, h s (by simp)]
    exact ih (fun t ht => h t (by simp [ht]))

/-- C6: on a page where an earlier selector matches with 50 characters of
text and a later one with 500 characters (and no third selector interferes
before the later one — those after it may match anything), `_extract_content`
returns the later selector's (cleaned) text: failing the 200-character gate
does not stop the scan, and the first match exceeding the gate ends it. -/
theorem C6_selector_priority (soup : Soup) (pre mid post : List String)
    (s1 s2 : String)
    (hdecomp : contentSelectors = pre ++ s1 :: (mid ++ s2 :: post))
    (e1 e2 : Element)
    (h1 : soup.selectOne s1 = some e1)
    (hlen1 : (contentFromElem e1).length = 50)
    (h2 : soup.selectOne s2 = some e2)
    (hlen2 : (contentFromElem e2).length = 500)
    (hpre : ∀ s ∈ pre, soup.selectOne s = none)
    (hmid : ∀ s ∈ mid, soup.selectOne s = none) :
    extract_content soup = some (collapseBlankLines (contentFromElem e2)) := by
  have hne2 : contentFromElem e2 ≠ "" := by
    intro he
    rw [he] at hlen2
    simp at hlen2
  have hgate1 : ¬ (contentFromElem e1 ≠ "" ∧ 200 < (contentFromElem e1).length) := by
    rintro ⟨-, hgt⟩
    omega
  unfold extract_content
  rw [hdecomp, contentLoop_skip_unmatched soup pre _ none hpre]
  simp only [contentLoop, h1]
  rw [if_neg hgate1]
  rw [contentLoop_skip_unmatched soup mid _ _ hmid]
  simp only [contentLoop, h2]
  rw [if_pos ⟨hne2, by omega⟩]
  simp [hne2]

/-- The narrow 50-character container of the C6 page. -/
def c6e1 : Element := { paragraphs := [], fullText := ⟨List.replicate 50 'a'⟩ }

/-- The broad 500-character container of the C6 page. -/
def c6e2 : Element := { paragraphs := [], fullText := ⟨List.replicate 500 'b'⟩ }

/-- A page where `.article-body` matches 50 characters and `main` matches 500. -/
def c6soup : Soup :=
  { selectOne := fun s =>
      if s = ".article-body" then some c6e1
      else if s = "main" then some c6e2 else none,
    ogImage := none, twitterImage := none,
    selectImg := fun _ => none, allImgs := [] }

set_option maxRecDepth 8192 in
theorem C6_selector_priority_witness :
    (contentFromElem c6e1).length = 50
  ∧ (contentFromElem c6e2).length = 500
  ∧ c6soup.selectOne ".article-body" = some c6e1
  ∧ c6soup.selectOne "main" = some c6e2
  ∧ extract_content c6soup = some (collapseBlankLines (contentFromElem c6e2))
  ∧ extract_content c6soup = some ⟨List.replicate 500 'b'⟩ := by
  refine ⟨by decide, by decide, by decide, by decide, ?_, by decide⟩
  exact C6_selector_priority c6soup
    ["article .article-content", "article .post-content", "article .entry-content"]
    [".post-body", ".story-content", ".news-content", "article", ".post-content",
     ".entry-content", "main article", "main .content", ".content-area"]
    [] ".article-body" "main" (by decide) c6e1 c6e2 (by decide) (by decide)
    (by decide) (by decide) (by decide) (by decide)

/-- The only matching container of the C1 page: short text under `main`. -/
def c1elem : Element := { paragraphs := [], fullText := "hello" }

/-- A page where only the `main` selector matches, with 5 characters. -/
def c1soup : Soup :=
  { selectOne := fun s => if s = "main" then some c1elem else none,
    ogImage := none, twitterImage := none,
    selectImg := fun _ => none, allImgs := [] }

/-- C1 counterexample: on a page where every selector's text is at most 200
characters (here a single match of 5 characters), `_extract_content` does not
return `None`: the loop variable `content` keeps the last match's text after
the loop falls through, and that text is cleaned and returned. -/
theorem C1_length_gate_counterexample :
    (∀ s ∈ contentSelectors,
       optAll (fun e => (contentFromElem e).length ≤ 200) (c1soup.selectOne s) = true)
  ∧ extract_content c1soup = some "hello" := by decide

/-- The text of the last selector that matches at all, regardless of length
(the final value of the Python loop variable `content` when no match breaks
the loop). -/
def lastMatch (soup : Soup) : List String → Option String
  | [] => none
  | s :: rest =>
    match lastMatch soup rest with
    | some c => some c
    | none => (soup.selectOne s).map contentFromElem

theorem contentLoop_all_fail (soup : Soup) :
    ∀ (ss : List String) (acc : Option String),
      (∀ s ∈ ss, ∀ e, soup.selectOne s = some e →
        ¬(contentFromElem e ≠ "" ∧ 200 < (contentFromElem e).length)) →
      contentLoop soup ss acc =
        match lastMatch soup ss with
        | some c => some c
        | none => acc := by
  intro ss
  induction ss with
  | nil =>
    intro acc h
    rfl
  | cons s rest ih =>
    intro acc h
    cases hs : soup.selectOne s with
    | none =>
      simp only [contentLoop, lastMatch, hs, Option.map_none']
      rw [ih acc (fun t ht => h t (by simp [ht]))]
      cases lastMatch soup rest <;> simp
    | some e =>
      have hg := h s (by simp) e hs
      simp only [contentLoop, lastMatch, hs, Option.map_some']
      rw [if_neg hg]
      rw [ih (some (contentFromElem e)) (fun t ht => h t (by simp [ht]))]
      cases lastMatch soup rest <;> simp

/-- C1 corrected: when no selector's text exceeds 200 characters,
`_extract_content` returns `None` only if no selector matched at all (or the
last matching selector's text is handed back raw when empty); otherwise it
returns the cleaned text of the last matching selector — the gate does not
reset the loop variable. -/
theorem C1_no_gate_returns_last_match (soup : Soup)
    (h : ∀ s ∈ contentSelectors,
       optAll (fun e => (contentFromElem e).length ≤ 200) (soup.selectOne s) = true) :
    extract_content soup =
      match lastMatch soup contentSelectors with
      | none => none
      | some c => if c ≠ "" then some (collapseBlankLines c) else some c := by
  unfold extract_content
  rw [contentLoop_all_fail soup contentSelectors none (fun s hs e he => ?_)]
  · cases lastMatch soup contentSelectors <;> rfl
  · rintro ⟨-, hgt⟩
    have hb := optAll_some (h s hs) he
    have hle : (contentFromElem e).length ≤ 200 := by simpa using hb
    omega

theorem C1_no_gate_returns_last_match_witness :
    (∀ s ∈ contentSelectors,
       optAll (fun e => (contentFromElem e).length ≤ 200) (c1soup.selectOne s) = true)
  ∧ lastMatch c1soup contentSelectors = some "hello"
  ∧ extract_content c1soup =
      match lastMatch c1soup contentSelectors with
      | none => none
      | some c => if c ≠ "" then some (collapseBlankLines c) else some c := by
  refine ⟨by decide, by decide, ?_⟩
  exact C1_no_gate_returns_last_match c1soup (by decide)

theorem dropWhile_dropWhile {α : Type} (p : α → Bool) (l : List α) :
    (l.dropWhile p).dropWhile p = l.dropWhile p := by
  induction l with
  | nil => rfl
  | cons c cs ih =>
    by_cases h : p c
    · simp [List.dropWhile_cons, h, ih]
    · simp [List.dropWhile_cons, h]

theorem noLead_head {α : Type} {p : α → Bool} {c : α} {cs : List α}
    (h : (c :: cs).dropWhile p = c :: cs) : p c = false := by
  by_cases hc : p c
  · rw [List.dropWhile_cons, if_pos hc] at h
    have hle := (List.dropWhile_sublist (l := cs) p).length_le
    have hlen := congrArg List.length h
    simp only [List.length_cons] at hlen
    omega
  · simpa using hc

theorem rstrip_decomp {α : Type} (p : α → Bool) (l : List α) :
    l = (l.reverse.dropWhile p).reverse ++ (l.reverse.takeWhile p).reverse := by
  have h := List.takeWhile_append_dropWhile (p := p) (l := l.reverse)
  have h2 := congrArg List.reverse h
  rw [List.reverse_append, List.reverse_reverse] at h2
  exact h2.symm

theorem noLead_rstrip {α : Type} {p : α → Bool} {l : List α} (h : l.dropWhile p = l) :
    ((l.reverse.dropWhile p).reverse).dropWhile p = (l.reverse.dropWhile p).reverse := by
  cases hH : (l.reverse.dropWhile p).reverse with
  | nil => rfl
  | cons c cs =>
    have hdec := rstrip_decomp p l
    rw [hH] at hdec
    have hl : l.dropWhile p = l := h
    rw [hdec, List.cons_append] at hl
    have hc : p c = false := noLead_head hl
    rw [List.dropWhile_cons, if_neg (by simp [hc])]

theorem stripChars_noLead (l : List Char) :
    (stripChars l).dropWhile pyIsSpace = stripChars l :=
  noLead_rstrip (dropWhile_dropWhile pyIsSpace l)

theorem stripChars_rev_noLead (l : List Char) :
    (stripChars l).reverse.dropWhile pyIsSpace = (stripChars l).reverse := by
  unfold stripChars
  rw [List.reverse_reverse]
  exact dropWhile_dropWhile pyIsSpace _

theorem stripChars_idem (l : List Char) : stripChars (stripChars l) = stripChars l := by
  show (((stripChars l).dropWhile pyIsSpace).reverse.dropWhile pyIsSpace).reverse
      = stripChars l
  rw [stripChars_noLead l, stripChars_rev_noLead l, List.reverse_reverse]

theorem stripChars_mem {c : Char} {l : List Char} (h : c ∈ stripChars l) : c ∈ l := by
  unfold stripChars at h
  rw [List.mem_reverse] at h
  have h2 := (List.dropWhile_sublist pyIsSpace).subset h
  rw [List.mem_reverse] at h2
  exact (List.dropWhile_sublist pyIsSpace).subset h2

theorem splitNl_ne_nil (l : List Char) : splitNl l ≠ [] := by
  cases l with
  | nil => simp [splitNl]
  | cons c cs =>
    simp only [splitNl]
    split
    · simp
    · split <;> simp

theorem splitNl_no_newline (l : List Char) : ∀ x ∈ splitNl l, '\n' ∉ x := by
  induction l with
  | nil =>
    intro x hx
    simp only [splitNl, List.mem_singleton] at hx
    subst hx
    simp
  | cons c cs ih =>
    intro x hx
    by_cases hc : c = '\n'
    · subst hc
      simp only [splitNl, if_pos rfl] at hx
      rcases List.mem_cons.mp hx with h | h
      · subst h
        simp
      · exact ih x h
    · simp only [splitNl, if_neg hc] at hx
      cases hcs : splitNl cs with
      | nil => exact absurd hcs (splitNl_ne_nil cs)
      | cons m ms =>
        simp only [hcs] at hx
        rcases List.mem_cons.mp hx with h | h
        · subst h
          intro hmem
          rcases List.mem_cons.mp hmem with h2 | h2
          · exact hc h2.symm
          · exact ih m (by simp [hcs]) h2
        · exact ih x (by simp [hcs, h])

theorem splitNl_append_newline (l m : List Char) (h : '\n' ∉ l) :
    splitNl (l ++ '\n' :: m) = l :: splitNl m := by
  induction l with
  | nil => simp [splitNl]
  | cons c cs ih =>
    have hc : ¬ c = '\n' := fun hh => h (by simp [hh])
    have hcs : '\n' ∉ cs := fun hh => h (by simp [hh])
    rw [List.cons_append]
    simp only [splitNl, if_neg hc, ih hcs]

theorem splitNl_no_newline_single (l : List Char) (h : '\n' ∉ l) : splitNl l = [l] := by
  induction l with
  | nil => rfl
  | cons c cs ih =>
    have hc : ¬ c = '\n' := fun hh => h (by simp [hh])
    have hcs : '\n' ∉ cs := fun hh => h (by simp [hh])
    simp only [splitNl, if_neg hc, ih hcs]

theorem collapse_roundtrip :
    ∀ ls : List (List Char),
      (∀ x ∈ ls, x ≠ [] ∧ '\n' ∉ x ∧ stripChars x = x) →
      ((splitNl (joinBlank ls)).map stripChars).filter (fun x => decide (x ≠ [])) = ls := by
  intro ls
  induction ls with
  | nil =>
    intro _
    simp [joinBlank, splitNl, stripChars]
  | cons l ls ih =>
    intro h
    obtain ⟨hne, hnl, hstrip⟩ := h l (by simp)
    cases ls with
    | nil =>
      show ((splitNl (joinBlank [l])).map stripChars).filter (fun x => decide (x ≠ []))
          = [l]
      rw [show joinBlank [l] = l from rfl, splitNl_no_newline_single l hnl]
      simp [hstrip, hne]
    | cons l2 rest =>
      rw [show joinBlank (l :: l2 :: rest) = l ++ '\n' :: '\n' :: joinBlank (l2 :: rest)
          from rfl]
      rw [splitNl_append_newline l _ hnl]
      rw [show splitNl ('\n' :: joinBlank (l2 :: rest))
            = [] :: splitNl (joinBlank (l2 :: rest)) by simp [splitNl]]
      simp only [List.map_cons, List.filter_cons, hstrip]
      rw [show stripChars [] = [] from rfl]
      rw [ih (fun x hx => h x (by simp [hx]))]
      simp [hne]

theorem collapseLines_fixes (l : List Char) :
    ∀ x ∈ ((splitNl l).map stripChars).filter (fun x => decide (x ≠ [])),
      x ≠ [] ∧ '\n' ∉ x ∧ stripChars x = x := by
  intro x hx
  rw [List.mem_filter] at hx
  obtain ⟨hx1, hx2⟩ := hx
  rw [List.mem_map] at hx1
  obtain ⟨y, hy, rfl⟩ := hx1
  refine ⟨by simpa using hx2, ?_, stripChars_idem y⟩
  intro hn
  exact splitNl_no_newline l y hy (stripChars_mem hn)

theorem collapseLines_idem (l : List Char) :
    collapseLines (collapseLines l) = collapseLines l := by
  unfold collapseLines
  exact congrArg joinBlank (collapse_roundtrip _ (collapseLines_fixes l))

/-- C8: the blank-line collapse step (split at newlines, drop
empty/whitespace-only lines, strip each survivor, rejoin with blank-line
separators) is idempotent: applying it twice to any text equals applying it
once. -/
theorem C8_blank_line_collapse_idempotent (s : String) :
    collapseBlankLines (collapseBlankLines s) = collapseBlankLines s := by
  show (⟨collapseLines (collapseLines s.data)⟩ : String) = ⟨collapseLines s.data⟩
  rw [collapseLines_idem]
